import Mathlib

/-!
Verification of the Smarter Page Turner tracking engine.

Shallow embedding of the online-DTW score-following engine:

* `ODTWTracker` — the live tracker with page-turn detection
  (source: Offline Programme/Live Page Turner/dtw.py),
* `StandardODTW` — the plain ODTW engine wrapped by the recovery layer
  (source: Offline Programme/DTW_Studies/ODTW_Python/dtw_live_test.py,
  the in-repository copy of the engine imported as dtw_engine.StandardODTW),
* `RecoveryODTW` — the divergence-watching recovery supervisor
  (source: Offline Programme/ODTW_Python/recovery_odtw.py),
* the bounded latest-wins snapshot channel of the streaming harness
  (source: Offline Programme/Live Page Turner/main.py).

Numbers are idealized: Python floats become real numbers, numpy's infinity
becomes the top element of `WithTop ℝ`.  Vectors (12-dim chroma frames in
the program) are lists of reals; the reference matrix of shape (12, N) is
embedded as the list of its N column vectors, so that the column access
`ref[:, i]` becomes list indexing.
-/

noncomputable section

/-- A feature (chroma) vector. -/
abbrev Vec := List ℝ

/-- An accumulated cost: a real number or numpy's infinity. -/
abbrev Cost := WithTop ℝ

/-- Dot product of two feature vectors (numpy dot). -/
def dot (a b : Vec) : ℝ := (List.zipWith (fun x y => x * y) a b).sum

/-- Clamp a real to the interval [-1, 1]: the source's
max(-1.0, min(1.0, x)) and np.clip(x, -1.0, 1.0). -/
def clamp (x : ℝ) : ℝ := max (-1) (min 1 x)

/-- Euclidean norm of a vector (np.linalg.norm). -/
def normOf (v : Vec) : ℝ := Real.sqrt (dot v v)

/-- Sum of a nonempty list of vectors, empty list giving the empty vector. -/
def sumVecs : List Vec → Vec
  | [] => []
  | v :: vs => vs.foldl (fun a b => List.zipWith (fun x y => x + y) a b) v

/-- Component-wise mean of a list of vectors (np.mean(..., axis=0)). -/
def vecMean (l : List Vec) : Vec := (sumVecs l).map (fun x => x / (l.length : ℝ))

/-- Append to a deque with maxlen = cap: the new element is appended and
the oldest elements are dropped so that at most cap survive. -/
def pushBounded {α : Type} (cap : ℕ) (buf : List α) (x : α) : List α :=
  let b := buf ++ [x]
  b.drop (b.length - cap)

/-- The live vector actually used for matching: the smoothing-buffer mean,
divided by its norm when that norm exceeds 1e-4 and left unchanged
otherwise (dtw.py lines 181-188, dtw_live_test.py lines 113-120). -/
def liveVec (buf : List Vec) : Vec :=
  let avg := vecMean buf
  let n := normOf avg
  if n > 1 / 10000 then avg.map (fun x => x / n) else avg

/-- Guarded per-frame normalization used by the recovery full-score scan
(recovery_odtw.py lines 107-113): divide by the norm when it exceeds
0.0001, otherwise keep the raw frame. -/
def normalizeGuarded (v : Vec) : Vec :=
  let n := normOf v
  if n > 1 / 10000 then v.map (fun x => x / n) else v

/-- The ODTW tracker of dtw.py: configuration plus mutable state.
Fields mirror ODTWTracker.__init__ / _reset_state. -/
structure ODTWTracker where
  ref : List Vec
  pageEndIndices : List ℤ
  searchWindow : ℕ
  damping : ℝ
  penaltyWait : ℝ
  penaltySkip : ℝ
  penaltyStep : ℝ
  pageTurnOffset : ℤ
  startThresholdRms : ℝ
  smoothingWindow : ℕ
  bpm : ℕ
  beatsPerMeasure : ℕ
  hopLength : ℕ
  sampleRate : ℕ
  currentPosition : ℕ
  accumulatedCosts : List Cost
  chromaBuffer : List Vec
  nextPageIdx : ℕ
  isRunning : Bool
  isFinished : Bool

namespace ODTWTracker

/-- self.n_frames = reference_chroma.shape[1]; the reference is immutable,
so the stored count always equals the length of the embedded column list. -/
def nFrames (t : ODTWTracker) : ℕ := t.ref.length

/-- self.num_turns = len(page_end_indices). -/
def numTurns (t : ODTWTracker) : ℕ := t.pageEndIndices.length

/-- self.total_pages = len(page_end_indices) + 1. -/
def totalPages (t : ODTWTracker) : ℕ := t.pageEndIndices.length + 1

/-- ODTWTracker._reset_state: position 0, cost array all infinite except
cost[0] = 0, page pointer 0, flags cleared, smoothing buffer cleared. -/
def resetState (t : ODTWTracker) : ODTWTracker :=
  { t with
    currentPosition := 0
    accumulatedCosts := (List.replicate t.nFrames (⊤ : Cost)).set 0 0
    nextPageIdx := 0
    isRunning := false
    isFinished := false
    chromaBuffer := [] }

/-- ODTWTracker.reset. -/
def reset (t : ODTWTracker) : ODTWTracker := t.resetState

/-- ODTWTracker.__init__: builds the tracker and runs _reset_state.
With an empty reference the state reset raises (the assignment
accumulated_costs[0] = 0.0 is an out-of-bounds write on a length-0 numpy
array), so no tracker is produced; this is embedded as an error result. -/
def init (ref : List Vec) (pageEndIndices : List ℤ) (searchWindow : ℕ)
    (damping penaltyWait penaltySkip penaltyStep : ℝ) (pageTurnOffset : ℤ)
    (startThresholdRms : ℝ) (smoothingWindow bpm beatsPerMeasure hopLength
    sampleRate : ℕ) : Except String ODTWTracker :=
  if ref.length = 0 then
    .error "IndexError: index 0 is out of bounds for axis 0 with size 0"
  else
    .ok (ODTWTracker.resetState
      { ref := ref
        pageEndIndices := pageEndIndices
        searchWindow := searchWindow
        damping := damping
        penaltyWait := penaltyWait
        penaltySkip := penaltySkip
        penaltyStep := penaltyStep
        pageTurnOffset := pageTurnOffset
        startThresholdRms := startThresholdRms
        smoothingWindow := smoothingWindow
        bpm := bpm
        beatsPerMeasure := beatsPerMeasure
        hopLength := hopLength
        sampleRate := sampleRate
        currentPosition := 0
        accumulatedCosts := []
        chromaBuffer := []
        nextPageIdx := 0
        isRunning := false
        isFinished := false })

/-- The new cost computed for window index i in _odtw_step: local cosine
distance plus the damped minimum over the wait / step / skip predecessors,
read from the pre-step accumulated cost array. -/
def stepCostAt (t : ODTWTracker) (lv : Vec) (i : ℕ) : Cost :=
  let localDist := 1 - clamp (dot lv (t.ref.getD i []))
  let costWait := t.accumulatedCosts.getD i ⊤ + (t.penaltyWait : Cost)
  let costStep :=
    if 0 < i then t.accumulatedCosts.getD (i - 1) ⊤ + (t.penaltyStep : Cost) else ⊤
  let costSkip :=
    if 1 < i then t.accumulatedCosts.getD (i - 2) ⊤ + (t.penaltySkip : Cost) else ⊤
  (localDist : Cost) + min costWait (min costStep costSkip) * (t.damping : Cost)

end ODTWTracker

/-- The scan loop shared by _odtw_step and StandardODTW.step: walk the
window indices, write g i into the new cost array, and keep the first
index strictly improving the best cost (seeded with the current position
and an infinite best cost). -/
def scanFold (g : ℕ → Cost) : List ℕ → List Cost × ℕ × Cost → List Cost × ℕ × Cost
  | [], acc => acc
  | i :: rest, acc =>
      scanFold g rest
        (acc.1.set i (g i), if g i < acc.2.2 then (i, g i) else acc.2)

namespace ODTWTracker

/-- ODTWTracker._odtw_step: smoothing, guarded normalization, windowed
cost update, argmin position update.  Returns the updated tracker together
with (best_index, best_cost). -/
def odtwStep (t : ODTWTracker) (live : Vec) : ODTWTracker × ℕ × Cost :=
  let buf := pushBounded (max 1 t.smoothingWindow) t.chromaBuffer live
  let lv := liveVec buf
  let startScan := t.currentPosition - t.searchWindow
  let endScan := min t.nFrames (t.currentPosition + t.searchWindow)
  let res := scanFold
    (stepCostAt t lv)
    (List.range' startScan (endScan - startScan))
    (List.replicate t.nFrames (⊤ : Cost), t.currentPosition, ⊤)
  ({ t with chromaBuffer := buf, accumulatedCosts := res.1,
            currentPosition := res.2.1 },
   res.2.1, res.2.2)

/-- ODTWTracker._check_page_turn: either mark the piece finished near the
end once all boundaries are consumed, or fire at most one page turn when
the position has reached the next boundary minus the trigger offset. -/
def checkPageTurn (t : ODTWTracker) : ODTWTracker × Option ℕ :=
  if t.numTurns ≤ t.nextPageIdx then
    if ¬t.isFinished ∧ (t.nFrames : ℤ) - 5 ≤ (t.currentPosition : ℤ) then
      ({ t with isFinished := true }, none)
    else (t, none)
  else
    if t.pageEndIndices.getD t.nextPageIdx 0 - t.pageTurnOffset ≤ (t.currentPosition : ℤ)
    then ({ t with nextPageIdx := t.nextPageIdx + 1 }, some (t.nextPageIdx + 2))
    else (t, none)

/-- ODTWTracker._get_current_page helper: first boundary strictly above
the position decides the (1-based) page, defaulting to the last page. -/
def currentPageAux (pos : ℤ) : List ℤ → ℕ → ℕ → ℕ
  | [], _, total => total
  | e :: rest, i, total => if pos < e then i + 1 else currentPageAux pos rest (i + 1) total

/-- ODTWTracker._get_current_page. -/
def getCurrentPage (t : ODTWTracker) : ℕ :=
  currentPageAux (t.currentPosition : ℤ) t.pageEndIndices 0 t.totalPages

/-- Python float modulo for the nonnegative operands appearing in
_calculate_measure_beat. -/
def fmod (a b : ℝ) : ℝ := a - b * (⌊a / b⌋ : ℝ)

/-- ODTWTracker._calculate_measure_beat. -/
def calcMeasureBeat (t : ODTWTracker) : ℤ × ℤ :=
  let timeSec := ((t.currentPosition * t.hopLength : ℕ) : ℝ) / (t.sampleRate : ℝ)
  let secPerBeat := 60 / (t.bpm : ℝ)
  let secPerMeasure := secPerBeat * (t.beatsPerMeasure : ℝ)
  (⌊timeSec / secPerMeasure⌋ + 1, ⌊fmod timeSec secPerMeasure / secPerBeat⌋ + 1)

end ODTWTracker

/-- TrackerState of dtw.py: the immutable snapshot handed to the GUI. -/
structure TrackerState where
  current_position : ℕ
  current_page : ℕ
  total_pages : ℕ
  score_length : ℕ
  progress_fraction : ℝ
  current_cost : Cost
  rms_level : ℝ
  is_running : Bool
  is_finished : Bool
  page_turn_triggered : Bool
  page_turn_target : ℕ
  measure : ℤ
  beat : ℤ

namespace ODTWTracker

/-- The single TrackerState construction at the end of ODTWTracker.step. -/
def mkSnapshot (t : ODTWTracker) (cost : Cost) (rms : ℝ) (trig : Bool)
    (target : ℕ) : TrackerState :=
  { current_position := t.currentPosition
    current_page := t.getCurrentPage
    total_pages := t.totalPages
    score_length := t.nFrames
    progress_fraction := min 1 ((t.currentPosition : ℝ) / ((max 1 t.nFrames : ℕ) : ℝ))
    current_cost := cost
    rms_level := rms
    is_running := t.isRunning
    is_finished := t.isFinished
    page_turn_triggered := trig
    page_turn_target := target
    measure := t.calcMeasureBeat.1
    beat := t.calcMeasureBeat.2 }

/-- ODTWTracker.step: start gating, the ODTW step and page-turn check
while running and not finished, and the snapshot construction. -/
def step (t : ODTWTracker) (live : Vec) (rms : ℝ) : ODTWTracker × TrackerState :=
  let t1 := if t.isRunning = false ∧ t.startThresholdRms ≤ rms
            then { t with isRunning := true } else t
  if t1.isRunning && !t1.isFinished then
    let s := t1.odtwStep live
    let p := s.1.checkPageTurn
    (p.1, p.1.mkSnapshot s.2.2 rms p.2.isSome (p.2.getD 0))
  else
    (t1, t1.mkSnapshot 0 rms false 0)

end ODTWTracker

/-- The plain ODTW engine wrapped by the recovery supervisor
(class StandardODTW in dtw_live_test.py; recovery_odtw.py imports the
same class from dtw_engine).  The module-level tunables it reads
(SEARCH_WINDOW, penalties, DAMPING_FACTOR, SMOOTHING_WINDOW) are carried
as configuration fields. -/
structure StandardODTW where
  ref : List Vec
  penaltyWait : ℝ
  penaltySkip : ℝ
  penaltyDiagonal : ℝ
  damping : ℝ
  smoothingWindow : ℕ
  searchWindow : ℕ
  currentPositionIndex : ℕ
  accumulatedCosts : List Cost
  chromaBuffer : List Vec

namespace StandardODTW

/-- self.n_frames_ref = self.ref.shape[1]. -/
def nFramesRef (o : StandardODTW) : ℕ := o.ref.length

/-- The per-index window cost of StandardODTW.step (same recurrence as
the live tracker, with the diagonal penalty in the step slot). -/
def stepCostAt (o : StandardODTW) (lv : Vec) (i : ℕ) : Cost :=
  let localDist := 1 - clamp (dot lv (o.ref.getD i []))
  let costWait := o.accumulatedCosts.getD i ⊤ + (o.penaltyWait : Cost)
  let costStep :=
    if 0 < i then o.accumulatedCosts.getD (i - 1) ⊤ + (o.penaltyDiagonal : Cost) else ⊤
  let costSkip :=
    if 1 < i then o.accumulatedCosts.getD (i - 2) ⊤ + (o.penaltySkip : Cost) else ⊤
  (localDist : Cost) + min costWait (min costStep costSkip) * (o.damping : Cost)

/-- StandardODTW.step: smoothing, guarded normalization, windowed cost
update and argmin, returning (best_index, best_local_cost). -/
def step (o : StandardODTW) (live : Vec) : StandardODTW × ℕ × Cost :=
  let buf := pushBounded o.smoothingWindow o.chromaBuffer live
  let lv := liveVec buf
  let startScan := o.currentPositionIndex - o.searchWindow
  let endScan := min o.nFramesRef (o.currentPositionIndex + o.searchWindow)
  let res := scanFold
    (stepCostAt o lv)
    (List.range' startScan (endScan - startScan))
    (List.replicate o.nFramesRef (⊤ : Cost), o.currentPositionIndex, ⊤)
  ({ o with chromaBuffer := buf, accumulatedCosts := res.1,
            currentPositionIndex := res.2.1 },
   res.2.1, res.2.2)

end StandardODTW

/-- RecoveryODTW of recovery_odtw.py: the wrapped engine plus the
divergence-monitoring state. -/
structure RecoveryODTW where
  odtw : StandardODTW
  recoveryThreshold : ℝ
  avgWindow : ℕ
  bufferSize : ℕ
  costHistory : List Cost
  chromaHistory : List Vec
  recoveryCount : ℕ

namespace RecoveryODTW

/-- self.n_frames_ref = reference_chroma.shape[1] (the same array the
wrapped engine holds). -/
def nFramesRef (r : RecoveryODTW) : ℕ := r.odtw.ref.length

end RecoveryODTW

/-- np.mean over the cost-history deque: infinite entries make the mean
infinite, otherwise the mean is the sum divided by the length. -/
def meanCost (l : List Cost) : Cost := WithTop.map (fun x => x / (l.length : ℝ)) l.sum

/-- The reference slice ref[:, s : s+m] of the (12, N) matrix, transposed
to a list of frames; numpy slicing truncates at the end of the array. -/
def sliceCols (ref : List Vec) (s m : ℕ) : List Vec := (ref.drop s).take m

/-- Row-wise product live_matrix * ref_slice of two (rows, 12) arrays
under numpy broadcasting: equal row counts multiply row by row, a single
row on either side is broadcast, anything else raises a ValueError. -/
def npMulRows (a b : List Vec) : Except String (List Vec) :=
  if a.length = b.length then
    .ok (List.zipWith (fun u v => List.zipWith (fun x y => x * y) u v) a b)
  else if a.length = 1 then
    .ok (b.map (fun v => List.zipWith (fun x y => x * y) (a.getD 0 []) v))
  else if b.length = 1 then
    .ok (a.map (fun u => List.zipWith (fun x y => x * y) u (b.getD 0 [])))
  else
    .error "ValueError: operands could not be broadcast together"

namespace RecoveryODTW

/-- RecoveryODTW._full_score_scan: normalize the buffered live frames,
slide them over every admissible start offset, track the offset with the
smallest mean clipped cosine distance (first strict improvement wins),
and answer the end of the best-matching window. -/
def fullScoreScan (r : RecoveryODTW) : Except String ℕ :=
  let history := r.chromaHistory
  let m := history.length
  if m = 0 then .ok r.odtw.currentPositionIndex
  else
    let liveNorm := history.map normalizeGuarded
    let maxStart := r.nFramesRef - m
    (((List.range (maxStart + 1)).foldlM (fun (best : ℕ × Cost) s => do
        let rows ← npMulRows liveNorm (sliceCols r.odtw.ref s m)
        let dists := rows.map (fun row => 1 - clamp row.sum)
        let avg := dists.sum / (dists.length : ℝ)
        if (avg : Cost) < best.2 then pure (s, (avg : Cost)) else pure best)
      ((0 : ℕ), (⊤ : Cost)) : Except String (ℕ × Cost))).map
      (fun best => best.1 + m - 1)

/-- RecoveryODTW._reset_at_position: clamp the target into [0, N-1],
reset the wrapped engine's costs to the single-source state there, move
its position and clear its smoothing buffer. -/
def resetAtPosition (r : RecoveryODTW) (p : ℕ) : RecoveryODTW :=
  let q := min p (r.nFramesRef - 1)
  { r with odtw := { r.odtw with
      accumulatedCosts := (List.replicate r.nFramesRef (⊤ : Cost)).set q 0,
      currentPositionIndex := q,
      chromaBuffer := [] } }

/-- RecoveryODTW.step: buffer the raw frame, delegate to the wrapped
engine, buffer the returned cost, and on a full cost window whose mean
exceeds the threshold run the full-score rescan, relocate, clear the cost
history, bump the recovery counter and re-issue the frame. -/
def step (r : RecoveryODTW) (live : Vec) :
    Except String (RecoveryODTW × ℕ × Cost × Bool) :=
  let rh := { r with chromaHistory := pushBounded r.bufferSize r.chromaHistory live }
  let o1 := StandardODTW.step rh.odtw live
  let r1 := { rh with odtw := o1.1,
                      costHistory := pushBounded r.avgWindow rh.costHistory o1.2.2 }
  if r1.costHistory.length = r.avgWindow ∧
      (r.recoveryThreshold : Cost) < meanCost r1.costHistory then do
    let newPos ← r1.fullScoreScan
    let r2 := r1.resetAtPosition newPos
    let r3 := { r2 with costHistory := [], recoveryCount := r2.recoveryCount + 1 }
    let o2 := StandardODTW.step r3.odtw live
    pure ({ r3 with odtw := o2.1 }, o2.2.1, o2.2.2, true)
  else
    pure (r1, o1.2.1, o1.2.2, false)

end RecoveryODTW

/-- The snapshot publish of AudioProcessingThread.run (main.py lines
81-89): try a non-blocking put; when the queue is full, pop the oldest
item and put again.  A python Queue with maxsize 0 is unbounded and never
full. -/
def publish {α : Type} (cap : ℕ) (q : List α) (s : α) : List α :=
  if cap = 0 ∨ q.length < cap then q ++ [s]
  else q.drop 1 ++ [s]

/-- The drain loop of PageTurnerGUI._poll_state: pop until the queue is
empty, remembering only the last item popped. -/
def pollLatest {α : Type} (q : List α) : Option α × List α :=
  (q.foldl (fun _ s => some s) none, [])

/-- Applying the drained state: the display is updated with the most
recently drained snapshot when one exists, and left alone otherwise. -/
def applyLatest {α β : Type} (update : α → β → β) (d : β) (q : List α) : β :=
  match (pollLatest q).1 with
  | none => d
  | some s => update s d

/-- The objective of the recovery rescan as the specification states it:
the mean, over the buffered frames, of the clipped cosine distance
between the k-th (guarded-)normalized history frame and reference frame
s + k. -/
def specAvgDist (hist ref : List Vec) (s : ℕ) : ℝ :=
  ((List.range hist.length).map (fun k =>
      1 - clamp (dot (normalizeGuarded (hist.getD k [])) (ref.getD (s + k) [])))).sum /
    (hist.length : ℝ)

/-- One pure comparison step of the rescan's best-offset tracking. -/
def bestStep (f : ℕ → ℝ) (b : ℕ × Cost) (s : ℕ) : ℕ × Cost :=
  if ((f s : ℝ) : Cost) < b.2 then (s, ((f s : ℝ) : Cost)) else b

/-! ## Concrete fixtures used by witnesses and counterexamples -/

/-- An all-zero 12-component chroma frame. -/
def zeroVec12 : Vec := [0, 0, 0, 0, 0, 0, 0, 0, 0, 0, 0, 0]

/-- A 12-component frame whose Euclidean norm is exactly 1e-4. -/
def nearZeroVec : Vec := [1 / 10000, 0, 0, 0, 0, 0, 0, 0, 0, 0, 0, 0]

/-- A one-frame reference score. -/
def demoRef : List Vec := [zeroVec12]

/-- A small running tracker over the one-frame reference. -/
def demoTracker : ODTWTracker :=
  { ref := demoRef
    pageEndIndices := [0]
    searchWindow := 1
    damping := 1 / 2
    penaltyWait := 0
    penaltySkip := 0
    penaltyStep := 0
    pageTurnOffset := 5
    startThresholdRms := 0
    smoothingWindow := 1
    bpm := 40
    beatsPerMeasure := 4
    hopLength := 512
    sampleRate := 44100
    currentPosition := 0
    accumulatedCosts := [(0 : Cost)]
    chromaBuffer := []
    nextPageIdx := 0
    isRunning := true
    isFinished := false }

/-- The same tracker with no page boundary left, about to finish. -/
def preFinishTracker : ODTWTracker := { demoTracker with pageEndIndices := [] }

/-- A tracker that already finished while running. -/
def finishedTracker : ODTWTracker := { preFinishTracker with isFinished := true }

/-- A small wrapped engine over the one-frame reference. -/
def demoOdtw : StandardODTW :=
  { ref := demoRef
    penaltyWait := 0
    penaltySkip := 0
    penaltyDiagonal := 0
    damping := 1 / 2
    smoothingWindow := 1
    searchWindow := 1
    currentPositionIndex := 0
    accumulatedCosts := [(0 : Cost)]
    chromaBuffer := [] }

/-- A recovery supervisor that triggers on the very first step. -/
def recDemo : RecoveryODTW :=
  { odtw := demoOdtw
    recoveryThreshold := -1
    avgWindow := 1
    bufferSize := 5
    costHistory := []
    chromaHistory := []
    recoveryCount := 0 }

/-- A two-frame wrapped engine. -/
def demoOdtw2 : StandardODTW :=
  { demoOdtw with ref := [zeroVec12, zeroVec12], accumulatedCosts := [(0 : Cost), ⊤] }

/-- A supervisor holding two buffered frames over a two-frame reference:
after the next frame is buffered the history is longer than the
reference. -/
def recDemoM3 : RecoveryODTW :=
  { recDemo with odtw := demoOdtw2, chromaHistory := [zeroVec12, zeroVec12] }

/-- A supervisor with one buffered frame over the two-frame reference. -/
def recDemoScan : RecoveryODTW :=
  { recDemo with odtw := demoOdtw2, chromaHistory := [zeroVec12] }

/-! ## Helper lemmas about the scan fold -/

theorem scanFold_fst_length (g : ℕ → Cost) (is : List ℕ) (l : List Cost)
    (b : ℕ × Cost) : (scanFold g is (l, b)).1.length = l.length := by
  induction is generalizing l b with
  | nil => rfl
  | cons i rest ih =>
      rw [scanFold, ih (l.set i (g i)) (if g i < b.2 then (i, g i) else b)]
      exact List.length_set l i (g i)

theorem scanFold_fst_getD_not_mem (g : ℕ → Cost) (is : List ℕ) (l : List Cost)
    (b : ℕ × Cost) (i : ℕ) (h : i ∉ is) :
    (scanFold g is (l, b)).1.getD i ⊤ = l.getD i ⊤ := by
  induction is generalizing l b with
  | nil => rfl
  | cons j rest ih =>
      have hji : j ≠ i := by rintro rfl; exact h (List.mem_cons_self _ _)
      have hi : i ∉ rest := fun hm => h (List.mem_cons_of_mem _ hm)
      rw [scanFold, ih _ _ hi]
      simp [List.getD_eq_getElem?_getD, List.getElem?_set_ne hji]

theorem scanFold_fst_getD_mem (g : ℕ → Cost) (is : List ℕ) (l : List Cost)
    (b : ℕ × Cost) (i : ℕ) (hnd : is.Nodup) (hm : i ∈ is) (hi : i < l.length) :
    (scanFold g is (l, b)).1.getD i ⊤ = g i := by
  induction is generalizing l b with
  | nil => cases hm
  | cons j rest ih =>
      rw [scanFold]
      rcases List.mem_cons.mp hm with rfl | hmem
      · have hrest : i ∉ rest := (List.nodup_cons.mp hnd).1
        rw [scanFold_fst_getD_not_mem _ _ _ _ _ hrest]
        simp [List.getD_eq_getElem?_getD, List.getElem?_set_self, hi]
      · exact ih _ _ (List.nodup_cons.mp hnd).2 hmem (by simpa using hi)

theorem scanFold_best (g : ℕ → Cost) (is : List ℕ) (l : List Cost) (b : ℕ × Cost) :
    ((scanFold g is (l, b)).2 = b ∨
      ((scanFold g is (l, b)).2.1 ∈ is ∧
        (scanFold g is (l, b)).2.2 = g (scanFold g is (l, b)).2.1)) ∧
    (scanFold g is (l, b)).2.2 ≤ b.2 ∧
    ∀ j ∈ is, (scanFold g is (l, b)).2.2 ≤ g j := by
  induction is generalizing l b with
  | nil => exact ⟨Or.inl rfl, le_rfl, by simp⟩
  | cons i rest ih =>
      rw [scanFold]
      by_cases h : g i < b.2
      · rw [if_pos h]
        obtain ⟨h1, h2, h3⟩ := ih (l.set i (g i)) (i, g i)
        refine ⟨?_, le_of_lt (lt_of_le_of_lt h2 h), ?_⟩
        · rcases h1 with h1 | h1
          · exact Or.inr ⟨by simp [h1], by simp [h1]⟩
          · exact Or.inr ⟨List.mem_cons_of_mem _ h1.1, h1.2⟩
        · intro j hj
          rcases List.mem_cons.mp hj with rfl | hj
          · exact h2
          · exact h3 j hj
      · rw [if_neg h]
        obtain ⟨h1, h2, h3⟩ := ih (l.set i (g i)) b
        refine ⟨?_, h2, ?_⟩
        · rcases h1 with h1 | h1
          · exact Or.inl h1
          · exact Or.inr ⟨List.mem_cons_of_mem _ h1.1, h1.2⟩
        · intro j hj
          rcases List.mem_cons.mp hj with rfl | hj
          · exact le_trans h2 (not_lt.mp h)
          · exact h3 j hj

theorem getD_replicate_top (n i : ℕ) :
    (List.replicate n (⊤ : Cost)).getD i ⊤ = ⊤ := by
  rcases lt_or_le i n with h | h
  · simp [List.getD_eq_getElem?_getD, List.getElem?_replicate, h]
  · have : (List.replicate n (⊤ : Cost)).length ≤ i := by simpa using h
    simp [List.getD_eq_getElem?_getD, List.getElem?_eq_none this]

/-! ## Helper lemmas about the tracker step -/

theorem checkPageTurn_preserves (t : ODTWTracker) :
    (t.checkPageTurn.1.currentPosition = t.currentPosition ∧
     t.checkPageTurn.1.accumulatedCosts = t.accumulatedCosts) ∧
    (t.checkPageTurn.1.ref = t.ref ∧ t.checkPageTurn.1.searchWindow = t.searchWindow) := by
  rw [ODTWTracker.checkPageTurn]
  split_ifs <;> simp

theorem odtwStep_position (t : ODTWTracker) (v : Vec)
    (hpos : t.currentPosition < t.nFrames) :
    ((t.odtwStep v).1.currentPosition = t.currentPosition ∨
      (t.currentPosition - t.searchWindow ≤ (t.odtwStep v).1.currentPosition ∧
        (t.odtwStep v).1.currentPosition <
          min t.nFrames (t.currentPosition + t.searchWindow))) ∧
    (t.odtwStep v).1.currentPosition < t.nFrames := by
  rw [ODTWTracker.odtwStep]
  set s := t.currentPosition - t.searchWindow with hs
  set e := min t.nFrames (t.currentPosition + t.searchWindow) with he
  set g := ODTWTracker.stepCostAt t
    (liveVec (pushBounded (max 1 t.smoothingWindow) t.chromaBuffer v)) with hg
  obtain ⟨hbest, -, -⟩ := scanFold_best g (List.range' s (e - s))
    (List.replicate t.nFrames (⊤ : Cost)) (t.currentPosition, ⊤)
  rcases hbest with hbest | hbest
  · constructor
    · left
      simpa using congrArg Prod.fst hbest
    · have := congrArg Prod.fst hbest
      simpa using this ▸ hpos
  · have hmem := hbest.1
    rw [List.mem_range'_1] at hmem
    have hlt : (scanFold g (List.range' s (e - s))
        (List.replicate t.nFrames (⊤ : Cost), t.currentPosition, ⊤)).2.1 < e := by
      omega
    have hle : s ≤ (scanFold g (List.range' s (e - s))
        (List.replicate t.nFrames (⊤ : Cost), t.currentPosition, ⊤)).2.1 := hmem.1
    have heN : e ≤ t.nFrames := min_le_left _ _
    exact ⟨Or.inr ⟨hle, hlt⟩, lt_of_lt_of_le hlt heN⟩

theorem odtwStep_preserves (t : ODTWTracker) (v : Vec) :
    (t.odtwStep v).1.pageEndIndices = t.pageEndIndices ∧
    (t.odtwStep v).1.nextPageIdx = t.nextPageIdx ∧
    (t.odtwStep v).1.pageTurnOffset = t.pageTurnOffset ∧
    (t.odtwStep v).1.isFinished = t.isFinished ∧
    (t.odtwStep v).1.isRunning = t.isRunning ∧
    (t.odtwStep v).1.numTurns = t.numTurns ∧
    (t.odtwStep v).1.nFrames = t.nFrames := by
  simp [ODTWTracker.odtwStep, ODTWTracker.numTurns, ODTWTracker.nFrames]

theorem step_position (t : ODTWTracker) (v : Vec) (r : ℝ)
    (hpos : t.currentPosition < t.nFrames) :
    (t.step v r).1.currentPosition < t.nFrames ∧
    ((t.step v r).1.currentPosition = t.currentPosition ∨
      (t.currentPosition - t.searchWindow ≤ (t.step v r).1.currentPosition ∧
        (t.step v r).1.currentPosition <
          min t.nFrames (t.currentPosition + t.searchWindow))) := by
  simp only [ODTWTracker.step]
  by_cases hg : t.isRunning = false ∧ t.startThresholdRms ≤ r
  · rw [if_pos hg]
    by_cases hb : ({ t with isRunning := true } : ODTWTracker).isRunning &&
        !({ t with isRunning := true } : ODTWTracker).isFinished
    · rw [if_pos hb]
      have hstep := odtwStep_position { t with isRunning := true } v hpos
      have hcp := (checkPageTurn_preserves
        (({ t with isRunning := true } : ODTWTracker).odtwStep v).1).1.1
      simp only [hcp]
      exact ⟨hstep.2, hstep.1⟩
    · rw [if_neg hb]
      exact ⟨hpos, Or.inl rfl⟩
  · rw [if_neg hg]
    by_cases hb : t.isRunning && !t.isFinished
    · rw [if_pos hb]
      have hstep := odtwStep_position t v hpos
      have hcp := (checkPageTurn_preserves ((t.odtwStep v).1)).1.1
      simp only [hcp]
      exact ⟨hstep.2, hstep.1⟩
    · rw [if_neg hb]
      exact ⟨hpos, Or.inl rfl⟩

theorem foldl_last_some {α : Type} (l : List α) (x : α) :
    l.foldl (fun _ s => some s) (some x) = some (l.getLastD x) := by
  induction l generalizing x with
  | nil => rfl
  | cons y ys ih => rw [List.foldl_cons, ih, List.getLastD_cons]

/-! ## Claim theorems -/

/-- C10: for a tracker over a non-empty reference the position stays
inside [0, N): resetting (and a successful initialization) puts it at 0,
a step either keeps it or moves it into the scan window, which lies
inside [0, N), and the recovery relocation clamps its target to
[0, N-1]. -/
theorem C10_position_invariant :
    (∀ t : ODTWTracker, t.resetState.currentPosition = 0 ∧ t.reset.currentPosition = 0) ∧
    (∀ (ref : List Vec) (pb : List ℤ) (w : ℕ) (d pw pk ps : ℝ) (off : ℤ) (thr : ℝ)
        (sm b1 b2 hop sr : ℕ) (t : ODTWTracker),
        ODTWTracker.init ref pb w d pw pk ps off thr sm b1 b2 hop sr = .ok t →
        t.currentPosition = 0 ∧ t.currentPosition < t.nFrames) ∧
    (∀ (t : ODTWTracker) (v : Vec) (r : ℝ), t.currentPosition < t.nFrames →
        (t.step v r).1.currentPosition < t.nFrames ∧
        ((t.step v r).1.currentPosition = t.currentPosition ∨
          (t.currentPosition - t.searchWindow ≤ (t.step v r).1.currentPosition ∧
            (t.step v r).1.currentPosition <
              min t.nFrames (t.currentPosition + t.searchWindow)))) ∧
    (∀ (rc : RecoveryODTW) (p : ℕ), 1 ≤ rc.nFramesRef →
        (rc.resetAtPosition p).odtw.currentPositionIndex < rc.nFramesRef) := by
  refine ⟨fun t => ⟨rfl, rfl⟩, ?_, fun t v r h => step_position t v r h, ?_⟩
  · intro ref pb w d pw pk ps off thr sm b1 b2 hop sr t hok
    rw [ODTWTracker.init] at hok
    by_cases h0 : ref.length = 0
    · rw [if_pos h0] at hok
      cases hok
    · rw [if_neg h0] at hok
      cases hok
      exact ⟨rfl, by simpa [ODTWTracker.resetState, ODTWTracker.nFrames] using
        Nat.pos_of_ne_zero h0⟩
  · intro rc p h
    have : min p (rc.nFramesRef - 1) ≤ rc.nFramesRef - 1 := min_le_right _ _
    simp only [RecoveryODTW.resetAtPosition]
    omega

/-- Witness for C10 at concrete inputs. -/
theorem C10_position_invariant_witness :
    (demoTracker.step zeroVec12 0).1.currentPosition < demoTracker.nFrames ∧
    (recDemoScan.resetAtPosition 7).odtw.currentPositionIndex < recDemoScan.nFramesRef := by
  constructor
  · exact (C10_position_invariant.2.2.1 demoTracker zeroVec12 0
      (by norm_num [demoTracker, ODTWTracker.nFrames, demoRef])).1
  · exact C10_position_invariant.2.2.2 recDemoScan 7
      (by norm_num [recDemoScan, recDemo, demoOdtw2, demoOdtw,
        RecoveryODTW.nFramesRef])

/-- C8: publishing into the bounded channel never blocks or errors:
it is a total operation that keeps the channel at or below its capacity
and always leaves the newest snapshot as the channel's last element
(when the channel is full the oldest element is dropped); the consumer's
poll drains the whole channel and updates the display only with the most
recently drained snapshot. -/
theorem C8_channel_latest_wins {α β : Type} (cap : ℕ) (q : List α) (s : α)
    (update : α → β → β) (d : β) (hcap : 1 ≤ cap) (hlen : q.length ≤ cap) :
    (publish cap q s).length ≤ cap ∧
    (publish cap q s).getLast? = some s ∧
    (∀ q' : List α, (pollLatest q').2 = []) ∧
    applyLatest update d ([] : List α) = d ∧
    (∀ (q' : List α) (x : α), q'.getLast? = some x →
        applyLatest update d q' = update x d) := by
  refine ⟨?_, ?_, fun _ => rfl, rfl, ?_⟩
  · rw [publish]
    split_ifs with h
    · rcases h with h | h
      · omega
      · simp only [List.length_append, List.length_cons, List.length_nil]
        omega
    · push_neg at h
      simp only [List.length_append, List.length_drop, List.length_cons,
        List.length_nil]
      omega
  · rw [publish]
    split_ifs <;> exact List.getLast?_concat _
  · intro q' x h
    cases q' with
    | nil => simp at h
    | cons y ys =>
        rw [applyLatest, pollLatest]
        simp only [List.foldl_cons, foldl_last_some]
        rw [List.getLastD_eq_getLast?]
        rw [List.getLast?_cons] at h
        rw [Option.some_inj.mp h]

/-- Witness for C8 at concrete inputs. -/
theorem C8_channel_latest_wins_witness :
    (publish 5 ([] : List ℕ) 7).length ≤ 5 ∧
    (publish 5 ([] : List ℕ) 7).getLast? = some 7 ∧
    applyLatest (fun a _ => a) 0 [3, 7] = 7 := by
  have h := @C8_channel_latest_wins ℕ ℕ 5 [] 7 (fun a _ => a) 0
    (by norm_num) (by simp)
  exact ⟨h.1, h.2.1, h.2.2.2.2 [3, 7] 7 (by rfl)⟩

/-- C6: while running and not finished, with a boundary left and the
post-step position at or past that boundary minus the trigger offset,
the step advances the boundary pointer exactly once and reports exactly
one page-turn event targeting the incremented pointer plus one, and the
snapshot's total page count is the boundary count plus one. -/
theorem C6_page_turn (t : ODTWTracker) (v : Vec) (r : ℝ)
    (hrun : t.isRunning = true) (hfin : t.isFinished = false)
    (hidx : t.nextPageIdx < t.numTurns)
    (hcross : t.pageEndIndices.getD t.nextPageIdx 0 - t.pageTurnOffset ≤
        (((t.odtwStep v).1.currentPosition : ℕ) : ℤ)) :
    (t.step v r).1.nextPageIdx = t.nextPageIdx + 1 ∧
    (t.step v r).2.page_turn_triggered = true ∧
    (t.step v r).2.page_turn_target = t.nextPageIdx + 2 ∧
    (t.step v r).2.total_pages = t.pageEndIndices.length + 1 := by
  have ht1 : (if t.isRunning = false ∧ t.startThresholdRms ≤ r
      then { t with isRunning := true } else t) = t := by
    rw [if_neg]
    simp [hrun]
  have hpre := odtwStep_preserves t v
  have hcpt : (t.odtwStep v).1.checkPageTurn =
      ({ (t.odtwStep v).1 with nextPageIdx := t.nextPageIdx + 1 },
        some (t.nextPageIdx + 2)) := by
    rw [ODTWTracker.checkPageTurn]
    rw [if_neg (by
      rw [hpre.2.2.2.2.2.1, hpre.2.1]
      omega)]
    rw [if_pos (by rw [hpre.1, hpre.2.1, hpre.2.2.1]; exact hcross)]
    rw [hpre.2.1]
  have hb : (t.isRunning && !t.isFinished) = true := by rw [hrun, hfin]; rfl
  simp only [ODTWTracker.step]
  rw [ht1, if_pos hb, hcpt]
  refine ⟨rfl, rfl, rfl, ?_⟩
  simp only [ODTWTracker.mkSnapshot, ODTWTracker.totalPages, hpre.1]

/-- Witness for C6 at a concrete firing step. -/
theorem C6_page_turn_witness :
    (demoTracker.step zeroVec12 0).2.page_turn_triggered = true ∧
    (demoTracker.step zeroVec12 0).2.page_turn_target = 2 ∧
    (demoTracker.step zeroVec12 0).2.total_pages = 2 := by
  have h := C6_page_turn demoTracker zeroVec12 0 rfl rfl
    (by norm_num [demoTracker, ODTWTracker.numTurns])
    (by
      have hn : (0 : ℤ) ≤ (((demoTracker.odtwStep zeroVec12).1.currentPosition : ℕ) : ℤ) :=
        Int.natCast_nonneg _
      have hv : demoTracker.pageEndIndices.getD demoTracker.nextPageIdx 0 -
          demoTracker.pageTurnOffset = -5 := by decide
      rw [hv]
      omega)
  exact ⟨h.2.1, h.2.2.1, h.2.2.2⟩

theorem step_costs_position (t : ODTWTracker) (v : Vec) (r : ℝ)
    (hrun : t.isRunning = true) (hfin : t.isFinished = false) :
    (t.step v r).1.accumulatedCosts = (t.odtwStep v).1.accumulatedCosts ∧
    (t.step v r).1.currentPosition = (t.odtwStep v).1.currentPosition := by
  have ht1 : (if t.isRunning = false ∧ t.startThresholdRms ≤ r
      then { t with isRunning := true } else t) = t := by
    rw [if_neg]
    simp [hrun]
  have hb : (t.isRunning && !t.isFinished) = true := by rw [hrun, hfin]; rfl
  simp only [ODTWTracker.step]
  rw [ht1, if_pos hb]
  exact ⟨(checkPageTurn_preserves _).1.2, (checkPageTurn_preserves _).1.1⟩

/-- C1: a step taken while running and not finished replaces the cost
array: inside the scan window [max(0, pos - W), min(N, pos + W)) the new
cost at i is the local cosine distance plus damping times the minimum of
the wait / step / skip predecessor costs (read from the old array, with
out-of-range predecessors infinite); every index outside the window is
reset to infinity; and the new position is an index of the window at
which the new cost array is minimal. -/
theorem C1_window_cost_update (t : ODTWTracker) (v : Vec) (r : ℝ)
    (hrun : t.isRunning = true) (hfin : t.isFinished = false)
    (hpos : t.currentPosition < t.nFrames) (hW : 1 ≤ t.searchWindow) :
    (t.step v r).1.accumulatedCosts.length = t.nFrames ∧
    (∀ i, t.currentPosition - t.searchWindow ≤ i →
        i < min t.nFrames (t.currentPosition + t.searchWindow) →
        (t.step v r).1.accumulatedCosts.getD i ⊤ =
          (((1 - clamp (dot
                (liveVec (pushBounded (max 1 t.smoothingWindow) t.chromaBuffer v))
                (t.ref.getD i []))) : ℝ) : Cost) +
            (t.damping : Cost) *
              min (t.accumulatedCosts.getD i ⊤ + (t.penaltyWait : Cost))
                (min
                  (if 0 < i then t.accumulatedCosts.getD (i - 1) ⊤ + (t.penaltyStep : Cost)
                    else ⊤)
                  (if 1 < i then t.accumulatedCosts.getD (i - 2) ⊤ + (t.penaltySkip : Cost)
                    else ⊤))) ∧
    (∀ i, i < t.nFrames →
        (i < t.currentPosition - t.searchWindow ∨
          min t.nFrames (t.currentPosition + t.searchWindow) ≤ i) →
        (t.step v r).1.accumulatedCosts.getD i ⊤ = ⊤) ∧
    (t.currentPosition - t.searchWindow ≤ (t.step v r).1.currentPosition ∧
      (t.step v r).1.currentPosition < min t.nFrames (t.currentPosition + t.searchWindow)) ∧
    (∀ i, t.currentPosition - t.searchWindow ≤ i →
        i < min t.nFrames (t.currentPosition + t.searchWindow) →
        (t.step v r).1.accumulatedCosts.getD ((t.step v r).1.currentPosition) ⊤ ≤
          (t.step v r).1.accumulatedCosts.getD i ⊤) := by
  obtain ⟨hc, hp⟩ := step_costs_position t v r hrun hfin
  rw [hc, hp]
  set s := t.currentPosition - t.searchWindow with hs
  set e := min t.nFrames (t.currentPosition + t.searchWindow) with he
  set lv := liveVec (pushBounded (max 1 t.smoothingWindow) t.chromaBuffer v) with hlv
  set g := t.stepCostAt lv with hg
  have hstep1 : (t.odtwStep v).1.accumulatedCosts =
      (scanFold g (List.range' s (e - s))
        (List.replicate t.nFrames (⊤ : Cost), t.currentPosition, ⊤)).1 := rfl
  have hstep2 : (t.odtwStep v).1.currentPosition =
      (scanFold g (List.range' s (e - s))
        (List.replicate t.nFrames (⊤ : Cost), t.currentPosition, ⊤)).2.1 := rfl
  have hse : s ≤ t.currentPosition := Nat.sub_le _ _
  have hpe : t.currentPosition < e := lt_min hpos (by omega)
  have hmem : ∀ i, i ∈ List.range' s (e - s) ↔ (s ≤ i ∧ i < e) := by
    intro i
    rw [List.mem_range'_1]
    omega
  have hnd : (List.range' s (e - s)).Nodup := List.nodup_range' _ _
  have hgi : ∀ i, s ≤ i → i < e →
      (scanFold g (List.range' s (e - s))
        (List.replicate t.nFrames (⊤ : Cost), t.currentPosition, ⊤)).1.getD i ⊤ = g i := by
    intro i h1 h2
    exact scanFold_fst_getD_mem g _ _ _ i hnd ((hmem i).mpr ⟨h1, h2⟩)
      (by simp; omega)
  obtain ⟨hbest, -, hminle⟩ := scanFold_best g (List.range' s (e - s))
    (List.replicate t.nFrames (⊤ : Cost)) (t.currentPosition, ⊤)
  refine ⟨?_, ?_, ?_, ?_, ?_⟩
  · rw [hstep1, scanFold_fst_length]
    simp
  · intro i h1 h2
    rw [hstep1, hgi i h1 h2, hg, ODTWTracker.stepCostAt]
    rw [mul_comm]
  · intro i hiN hout
    rw [hstep1, scanFold_fst_getD_not_mem g _ _ _ i
      (fun hm => by have := (hmem i).mp hm; omega)]
    exact getD_replicate_top _ _
  · rw [hstep2]
    rcases hbest with hb | hb
    · have : (scanFold g (List.range' s (e - s))
          (List.replicate t.nFrames (⊤ : Cost), t.currentPosition, ⊤)).2.1 =
          t.currentPosition := by rw [hb]
      rw [this]
      exact ⟨hse, hpe⟩
    · have := (hmem _).mp hb.1
      exact this
  · intro i h1 h2
    rw [hstep1, hstep2, hgi i h1 h2]
    rcases hbest with hb | hb
    · have hb1 : (scanFold g (List.range' s (e - s))
          (List.replicate t.nFrames (⊤ : Cost), t.currentPosition, ⊤)).2.1 =
          t.currentPosition := by rw [hb]
      have hb2 : (scanFold g (List.range' s (e - s))
          (List.replicate t.nFrames (⊤ : Cost), t.currentPosition, ⊤)).2.2 = ⊤ := by rw [hb]
      have hgtop : ∀ j, j ∈ List.range' s (e - s) → g j = ⊤ := by
        intro j hj
        have := hminle j hj
        rw [hb2] at this
        exact top_le_iff.mp this
      rw [hb1, hgi _ hse hpe, hgtop _ ((hmem _).mpr ⟨hse, hpe⟩),
        hgtop _ ((hmem _).mpr ⟨h1, h2⟩)]
    · have hmem2 := (hmem _).mp hb.1
      rw [hgi _ hmem2.1 hmem2.2, ← hb.2]
      exact hminle i ((hmem i).mpr ⟨h1, h2⟩)

/-- Witness for C1 at a concrete running step. -/
theorem C1_window_cost_update_witness :
    (demoTracker.step zeroVec12 0).1.accumulatedCosts.length = demoTracker.nFrames ∧
    (demoTracker.currentPosition - demoTracker.searchWindow ≤
        (demoTracker.step zeroVec12 0).1.currentPosition ∧
      (demoTracker.step zeroVec12 0).1.currentPosition <
        min demoTracker.nFrames (demoTracker.currentPosition + demoTracker.searchWindow)) := by
  have h := C1_window_cost_update demoTracker zeroVec12 0 rfl rfl
    (by norm_num [demoTracker, ODTWTracker.nFrames, demoRef]) (by norm_num [demoTracker])
  exact ⟨h.1, h.2.2.2.1⟩

/-- C3 (amended): initialization does not validate the reference with
a dedicated InvalidReference check.  With an empty reference it fails
(through the out-of-bounds cost write of the state reset, an index
error) and no tracker is produced; for every non-empty reference it
succeeds, with the page boundaries accepted unchecked. -/
theorem C3_init_behaviour (ref : List Vec) (pb : List ℤ) (w : ℕ)
    (d pw pk ps : ℝ) (off : ℤ) (thr : ℝ) (sm b1 b2 hop sr : ℕ) :
    (ref.length = 0 →
      ODTWTracker.init ref pb w d pw pk ps off thr sm b1 b2 hop sr =
        .error "IndexError: index 0 is out of bounds for axis 0 with size 0") ∧
    (0 < ref.length →
      ∃ t : ODTWTracker,
        ODTWTracker.init ref pb w d pw pk ps off thr sm b1 b2 hop sr = .ok t ∧
          t.pageEndIndices = pb ∧ t.currentPosition = 0) := by
  constructor
  · intro h
    rw [ODTWTracker.init, if_pos h]
  · intro h
    rw [ODTWTracker.init, if_neg (by omega)]
    exact ⟨_, rfl, rfl, rfl⟩

/-- Witness for C3 (amended) at concrete references. -/
theorem C3_init_behaviour_witness :
    ODTWTracker.init [] [] 1 (1 / 2) 0 0 0 5 0 1 40 4 512 44100 =
      .error "IndexError: index 0 is out of bounds for axis 0 with size 0" ∧
    ∃ t : ODTWTracker,
      ODTWTracker.init demoRef [] 1 (1 / 2) 0 0 0 5 0 1 40 4 512 44100 = .ok t ∧
        t.pageEndIndices = [] ∧ t.currentPosition = 0 := by
  exact ⟨(C3_init_behaviour [] [] 1 (1 / 2) 0 0 0 5 0 1 40 4 512 44100).1 rfl,
    (C3_init_behaviour demoRef [] 1 (1 / 2) 0 0 0 5 0 1 40 4 512 44100).2
      (by norm_num [demoRef])⟩

/-- Counterexample to the claim C3 as stated: a reference with one frame
and the page boundary 5 — far outside [0, 1) — is accepted and a tracker
is created, so initialization does not fail on out-of-range boundaries. -/
theorem C3_counterexample :
    (∃ t : ODTWTracker,
      ODTWTracker.init demoRef [5] 1 (1 / 2) 0 0 0 5 0 1 40 4 512 44100 = .ok t) ∧
    ¬((5 : ℤ) < (demoRef.length : ℤ)) := by
  constructor
  · rw [ODTWTracker.init, if_neg (by norm_num [demoRef])]
    exact ⟨_, rfl⟩
  · norm_num [demoRef]

/-- C9 (amended): the step is total on every live frame — the frame
is always appended to the smoothing buffer — and the matching vector is
the buffer mean divided by its norm when that norm strictly exceeds
1e-4, and the unnormalized mean when the norm is at most 1e-4 (so an
exactly-threshold or zero norm takes the unnormalized branch and no
division happens). -/
theorem C9_norm_guard (buf : List Vec) :
    (normOf (vecMean buf) ≤ 1 / 10000 → liveVec buf = vecMean buf) ∧
    (1 / 10000 < normOf (vecMean buf) →
      liveVec buf = (vecMean buf).map (fun x => x / normOf (vecMean buf))) ∧
    ∀ (cap : ℕ) (b : List Vec) (w : Vec), 1 ≤ cap →
      (pushBounded cap b w).getLast? = some w := by
  refine ⟨?_, ?_, ?_⟩
  · intro h
    simp only [liveVec]
    rw [if_neg (not_lt.mpr h)]
  · intro h
    simp only [liveVec]
    rw [if_pos h]
  · intro cap b w hcap
    rw [pushBounded]
    have hlen : (b ++ [w]).length - cap ≤ b.length := by
      simp only [List.length_append, List.length_cons, List.length_nil]
      omega
    rw [List.drop_append_of_le_length hlen]
    exact List.getLast?_concat _

/-- Witness for C9 (amended) on a zero frame and a tiny buffer. -/
theorem C9_norm_guard_witness :
    liveVec [zeroVec12] = vecMean [zeroVec12] ∧
    (pushBounded 1 [] zeroVec12).getLast? = some zeroVec12 := by
  refine ⟨(C9_norm_guard [zeroVec12]).1 ?_, (C9_norm_guard []).2.2 1 [] zeroVec12 (by norm_num)⟩
  have hd : dot (vecMean [zeroVec12]) (vecMean [zeroVec12]) = 0 := by
    norm_num [vecMean, sumVecs, zeroVec12, dot]
  rw [normOf, hd, Real.sqrt_zero]
  norm_num

theorem vecMean_nearZero : vecMean [nearZeroVec] = nearZeroVec := by
  norm_num [vecMean, sumVecs, nearZeroVec]

theorem normOf_nearZero : normOf nearZeroVec = 1 / 10000 := by
  rw [normOf]
  have hd : dot nearZeroVec nearZeroVec = ((1 : ℝ) / 10000) ^ 2 := by
    norm_num [dot, nearZeroVec]
  rw [hd, Real.sqrt_sq (by norm_num)]

/-- Counterexample to the claim C9 as stated: a buffer whose mean has
norm exactly 1e-4.  The claim demands division by the norm whenever the
norm is at least 1e-4, but the code normalizes only on a strictly larger
norm, so here the unnormalized mean is used. -/
theorem C9_counterexample :
    1 / 10000 ≤ normOf (vecMean [nearZeroVec]) ∧
    liveVec [nearZeroVec] ≠
      (vecMean [nearZeroVec]).map (fun x => x / normOf (vecMean [nearZeroVec])) := by
  have h1 : normOf (vecMean [nearZeroVec]) = 1 / 10000 := by
    rw [vecMean_nearZero, normOf_nearZero]
  constructor
  · rw [h1]
  · have h2 : liveVec [nearZeroVec] = nearZeroVec := by
      simp only [liveVec]
      rw [if_neg (by rw [vecMean_nearZero, normOf_nearZero]; norm_num), vecMean_nearZero]
    rw [h2, vecMean_nearZero, normOf_nearZero]
    intro h
    have := congrArg (fun l => l.getD 0 0) h
    norm_num [nearZeroVec] at this

theorem finished_step (t : ODTWTracker) (v : Vec) (r : ℝ)
    (hfin : t.isFinished = true) (hrun : t.isRunning = true) :
    t.step v r = (t, t.mkSnapshot 0 r false 0) := by
  have ht1 : (if t.isRunning = false ∧ t.startThresholdRms ≤ r
      then { t with isRunning := true } else t) = t := by
    rw [if_neg]
    simp [hrun]
  have hb : (t.isRunning && !t.isFinished) = false := by rw [hrun, hfin]; rfl
  simp only [ODTWTracker.step]
  rw [ht1, if_neg (by rw [hb]; simp)]

/-- C2 (amended): once finished (while running), a step call mutates
no tracker state, and the snapshot it returns repeats the finish-time
position-derived fields — position, page, total pages, score length,
progress, measure and beat — with no page-turn event, but its reported
cost is the constant 0 and its energy level echoes the current call's
argument, so those two snapshot fields are not preserved from the finish
snapshot. -/
theorem C2_finished_noop (t : ODTWTracker) (v : Vec) (r : ℝ)
    (hfin : t.isFinished = true) (hrun : t.isRunning = true) :
    (t.step v r).1 = t ∧
    (t.step v r).2 =
      { current_position := t.currentPosition
        current_page := t.getCurrentPage
        total_pages := t.totalPages
        score_length := t.nFrames
        progress_fraction :=
          min 1 ((t.currentPosition : ℝ) / ((max 1 t.nFrames : ℕ) : ℝ))
        current_cost := 0
        rms_level := r
        is_running := true
        is_finished := true
        page_turn_triggered := false
        page_turn_target := 0
        measure := t.calcMeasureBeat.1
        beat := t.calcMeasureBeat.2 } := by
  rw [finished_step t v r hfin hrun]
  refine ⟨rfl, ?_⟩
  simp only [ODTWTracker.mkSnapshot, hrun, hfin]

/-- Witness for C2 (amended) on a concrete finished tracker. -/
theorem C2_finished_noop_witness :
    (finishedTracker.step zeroVec12 (3 / 2)).1 = finishedTracker ∧
    (finishedTracker.step zeroVec12 (3 / 2)).2.current_cost = 0 ∧
    (finishedTracker.step zeroVec12 (3 / 2)).2.rms_level = 3 / 2 := by
  have h := C2_finished_noop finishedTracker zeroVec12 (3 / 2) rfl rfl
  exact ⟨h.1, by rw [h.2], by rw [h.2]⟩

/-- Counterexample to the claim C2 as stated: a tracker that becomes
finished on a step returns a snapshot carrying that call's energy level;
a later step with a different energy argument returns a snapshot whose
energy field differs from the finish-time snapshot, so the snapshot is
not byte-for-byte preserved for arbitrary energy arguments. -/
theorem C2_counterexample :
    (preFinishTracker.step zeroVec12 1).1.isFinished = true ∧
    (preFinishTracker.step zeroVec12 1).2.is_finished = true ∧
    (preFinishTracker.step zeroVec12 1).2.rms_level = 1 ∧
    ((preFinishTracker.step zeroVec12 1).1.step zeroVec12 2).2.rms_level = 2 ∧
    ((preFinishTracker.step zeroVec12 1).1.step zeroVec12 2).2 ≠
      (preFinishTracker.step zeroVec12 1).2 := by
  have hpre := odtwStep_preserves preFinishTracker zeroVec12
  have hcpt : (preFinishTracker.odtwStep zeroVec12).1.checkPageTurn =
      ({ (preFinishTracker.odtwStep zeroVec12).1 with isFinished := true }, none) := by
    rw [ODTWTracker.checkPageTurn]
    rw [if_pos (by rw [hpre.2.2.2.2.2.1, hpre.2.1]; decide)]
    rw [if_pos ?_]
    constructor
    · rw [hpre.2.2.2.1]
      simp [preFinishTracker, demoTracker]
    · rw [hpre.2.2.2.2.2.2]
      have h1 : preFinishTracker.nFrames = 1 := rfl
      have h2 := Int.natCast_nonneg ((preFinishTracker.odtwStep zeroVec12).1.currentPosition)
      rw [h1]
      omega
  have hs1 : preFinishTracker.step zeroVec12 1 =
      ({ (preFinishTracker.odtwStep zeroVec12).1 with isFinished := true },
        ODTWTracker.mkSnapshot
          { (preFinishTracker.odtwStep zeroVec12).1 with isFinished := true }
          (preFinishTracker.odtwStep zeroVec12).2.2 1 false 0) := by
    have ht1 : (if preFinishTracker.isRunning = false ∧
        preFinishTracker.startThresholdRms ≤ (1 : ℝ)
        then { preFinishTracker with isRunning := true } else preFinishTracker) =
        preFinishTracker := by
      rw [if_neg]
      simp [preFinishTracker, demoTracker]
    have hb : (preFinishTracker.isRunning && !preFinishTracker.isFinished) = true := rfl
    simp only [ODTWTracker.step]
    rw [ht1, if_pos hb, hcpt]
    rfl
  have ht1fin : (preFinishTracker.step zeroVec12 1).1.isFinished = true := by
    rw [hs1]
  have ht1run : (preFinishTracker.step zeroVec12 1).1.isRunning = true := by
    rw [hs1]
    show (preFinishTracker.odtwStep zeroVec12).1.isRunning = true
    rw [hpre.2.2.2.2.1]
    rfl
  have hs2 := finished_step ((preFinishTracker.step zeroVec12 1).1) zeroVec12 2 ht1fin ht1run
  have hr1 : (preFinishTracker.step zeroVec12 1).2.rms_level = 1 := by
    rw [hs1]
    rfl
  have hr2 : ((preFinishTracker.step zeroVec12 1).1.step zeroVec12 2).2.rms_level = 2 := by
    rw [hs2]
    rfl
  refine ⟨ht1fin, by rw [hs1]; rfl, hr1, hr2, ?_⟩
  intro heq
  have := congrArg TrackerState.rms_level heq
  rw [hr1, hr2] at this
  norm_num at this

/-! ## Concrete evaluation helpers -/

theorem dot_zero12 : dot zeroVec12 zeroVec12 = 0 := by
  norm_num [dot, zeroVec12]

theorem clamp_zero : clamp 0 = 0 := by
  norm_num [clamp]

theorem vecMean_zero : vecMean [zeroVec12] = zeroVec12 := by
  norm_num [vecMean, sumVecs, zeroVec12]

theorem normOf_zero12 : normOf zeroVec12 = 0 := by
  rw [normOf, dot_zero12, Real.sqrt_zero]

theorem liveVec_zero : liveVec [zeroVec12] = zeroVec12 := by
  simp only [liveVec]
  rw [vecMean_zero, normOf_zero12, if_neg (by norm_num)]

theorem normalizeGuarded_zero : normalizeGuarded zeroVec12 = zeroVec12 := by
  simp only [normalizeGuarded]
  rw [normOf_zero12, if_neg (by norm_num)]

theorem pushBounded_small {α : Type} (cap : ℕ) (l : List α) (x : α)
    (h : l.length + 1 ≤ cap) : pushBounded cap l x = l ++ [x] := by
  rw [pushBounded]
  have h0 : (l ++ [x]).length - cap = 0 := by
    simp only [List.length_append, List.length_cons, List.length_nil]
    omega
  rw [h0, List.drop_zero]

theorem demoOdtw_step_eval :
    StandardODTW.step demoOdtw zeroVec12 =
      ({ demoOdtw with
          chromaBuffer := [zeroVec12]
          accumulatedCosts := [((1 : ℝ) : Cost)]
          currentPositionIndex := 0 },
        0, ((1 : ℝ) : Cost)) := by
  have hbuf : pushBounded demoOdtw.smoothingWindow demoOdtw.chromaBuffer zeroVec12 =
      [zeroVec12] := pushBounded_small 1 [] zeroVec12 (by norm_num)
  simp only [StandardODTW.step, hbuf, liveVec_zero]
  have hrange : List.range'
      (demoOdtw.currentPositionIndex - demoOdtw.searchWindow)
      (min demoOdtw.nFramesRef (demoOdtw.currentPositionIndex + demoOdtw.searchWindow) -
        (demoOdtw.currentPositionIndex - demoOdtw.searchWindow)) = [0] := by
    norm_num [demoOdtw, demoRef, StandardODTW.nFramesRef, List.range']
  rw [hrange]
  have hg : StandardODTW.stepCostAt demoOdtw zeroVec12 0 = ((1 : ℝ) : Cost) := by
    simp only [StandardODTW.stepCostAt, demoOdtw, demoRef]
    norm_num [dot_zero12, clamp_zero, List.getD]
  simp only [scanFold, hg]
  rw [if_pos (WithTop.coe_lt_top 1)]
  norm_num [demoOdtw, List.set, List.replicate]

theorem meanCost_one : meanCost [((1 : ℝ) : Cost)] = ((1 : ℝ) : Cost) := by
  simp [meanCost, WithTop.map_coe]

theorem zipmul_zero12 : (List.zipWith (fun x y => x * y) zeroVec12 zeroVec12).sum = (0 : ℝ) :=
  dot_zero12

theorem fullScoreScan_demo (r : RecoveryODTW) (hh : r.chromaHistory = [zeroVec12])
    (hr : r.odtw.ref = demoRef) : r.fullScoreScan = .ok 0 := by
  simp only [RecoveryODTW.fullScoreScan, RecoveryODTW.nFramesRef, hh, hr]
  norm_num [demoRef, normalizeGuarded_zero, sliceCols, npMulRows, List.range',
    List.foldlM, Except.bind, Except.map, zipmul_zero12, clamp_zero]


theorem recDemo_step_eval :
    recDemo.step zeroVec12 = .ok
      ({ odtw := { demoOdtw with
            chromaBuffer := [zeroVec12]
            accumulatedCosts := [((1 : ℝ) : Cost)]
            currentPositionIndex := 0 }
         recoveryThreshold := -1
         avgWindow := 1
         bufferSize := 5
         costHistory := []
         chromaHistory := [zeroVec12]
         recoveryCount := 1 },
        0, ((1 : ℝ) : Cost), true) := by
  have h1 : pushBounded recDemo.bufferSize recDemo.chromaHistory zeroVec12 = [zeroVec12] := by
    rw [show recDemo.bufferSize = 5 from rfl, show recDemo.chromaHistory = [] from rfl]
    rw [pushBounded_small 5 [] zeroVec12 (by norm_num)]
    rfl
  have h2 : StandardODTW.step recDemo.odtw zeroVec12 =
      ({ demoOdtw with
          chromaBuffer := [zeroVec12]
          accumulatedCosts := [((1 : ℝ) : Cost)]
          currentPositionIndex := 0 },
        0, ((1 : ℝ) : Cost)) := demoOdtw_step_eval
  have hpc : pushBounded recDemo.avgWindow recDemo.costHistory ((1 : ℝ) : Cost) =
      [((1 : ℝ) : Cost)] := by
    rw [show recDemo.avgWindow = 1 from rfl,
      show recDemo.costHistory = ([] : List Cost) from rfl]
    rw [pushBounded_small 1 [] _ (by norm_num)]
    rfl
  have hcond : (([((1 : ℝ) : Cost)] : List Cost).length = recDemo.avgWindow) ∧
      ((recDemo.recoveryThreshold : Cost) < meanCost [((1 : ℝ) : Cost)]) := by
    refine ⟨rfl, ?_⟩
    rw [meanCost_one, show recDemo.recoveryThreshold = (-1 : ℝ) from rfl]
    exact WithTop.coe_lt_coe.mpr (by norm_num)
  simp only [RecoveryODTW.step, h1, h2, hpc]
  rw [if_pos hcond]
  have hreset : ∀ ct : List Cost, RecoveryODTW.resetAtPosition
      { recDemo with
        chromaHistory := [zeroVec12]
        odtw := { demoOdtw with
          chromaBuffer := [zeroVec12]
          accumulatedCosts := [((1 : ℝ) : Cost)]
          currentPositionIndex := 0 }
        costHistory := ct } 0 =
      { recDemo with
        chromaHistory := [zeroVec12]
        odtw := demoOdtw
        costHistory := ct } := by
    intro ct
    simp only [RecoveryODTW.resetAtPosition, RecoveryODTW.nFramesRef]
    norm_num [demoOdtw, demoRef, List.replicate, List.set]
  rw [fullScoreScan_demo _ rfl rfl]
  show Except.ok 0 >>= _ = _
  simp only [Bind.bind, Except.bind]
  rw [hreset [((1 : ℝ) : Cost)]]
  rw [show StandardODTW.step
      ({ recDemo with
        chromaHistory := [zeroVec12]
        odtw := demoOdtw
        costHistory := [((1 : ℝ) : Cost)] } : RecoveryODTW).odtw zeroVec12 =
      ({ demoOdtw with
          chromaBuffer := [zeroVec12]
          accumulatedCosts := [((1 : ℝ) : Cost)]
          currentPositionIndex := 0 },
        0, ((1 : ℝ) : Cost)) from demoOdtw_step_eval]
  rfl

/-! ## Machinery for the rescan argmin -/

theorem getD_map_lt {α β : Type} (f : α → β) (l : List α) (k : ℕ) (hk : k < l.length)
    (da : α) (db : β) : (l.map f).getD k db = f (l.getD k da) := by
  rw [List.getD_eq_getElem?_getD, List.getD_eq_getElem?_getD, List.getElem?_map]
  rw [List.getElem?_eq_getElem hk]
  rfl

theorem sliceCols_getD (ref : List Vec) (s m k : ℕ) (hk : k < m)
    (_hsm : s + m ≤ ref.length) :
    (sliceCols ref s m).getD k [] = ref.getD (s + k) [] := by
  rw [sliceCols, List.getD_eq_getElem?_getD, List.getD_eq_getElem?_getD]
  rw [List.getElem?_take_of_lt hk, List.getElem?_drop]

theorem sliceCols_length (ref : List Vec) (s m : ℕ) (hsm : s + m ≤ ref.length) :
    (sliceCols ref s m).length = m := by
  simp only [sliceCols, List.length_take, List.length_drop]
  omega

theorem zipWith_getD_range {α β γ : Type} (f : α → β → γ) (da : α) (db : β) :
    ∀ (A : List α) (B : List β), A.length = B.length →
      List.zipWith f A B =
        (List.range A.length).map (fun k => f (A.getD k da) (B.getD k db)) := by
  intro A
  induction A with
  | nil => intro B h; rfl
  | cons a A ih =>
      intro B h
      cases B with
      | nil => simp at h
      | cons b B =>
          have hAB : A.length = B.length := by simpa using h
          simp only [List.zipWith_cons_cons, List.length_cons, List.range_succ_eq_map,
            List.map_cons, List.map_map]
          congr 1
          rw [ih B hAB]
          exact List.map_congr_left (fun k _ => rfl)

theorem foldlM_bestStep (f : ℕ → ℝ)
    (body : ℕ × Cost → ℕ → Except String (ℕ × Cost)) :
    ∀ (L : List ℕ) (b : ℕ × Cost),
      (∀ (b2 : ℕ × Cost) (s : ℕ), s ∈ L → body b2 s = pure (bestStep f b2 s)) →
      L.foldlM body b = .ok (L.foldl (bestStep f) b) := by
  intro L
  induction L with
  | nil => intro b _; rfl
  | cons s L ih =>
      intro b hb
      rw [List.foldlM_cons, hb b s (List.mem_cons_self _ _)]
      show (pure (bestStep f b s) : Except String (ℕ × Cost)) >>= _ = _
      rw [pure_bind]
      rw [ih _ (fun b2 t ht => hb b2 t (List.mem_cons_of_mem _ ht))]
      rfl

theorem bestStep_inv (f : ℕ → ℝ) :
    ∀ (n k : ℕ) (b : ℕ × Cost),
      b.1 < k → b.2 = ((f b.1 : ℝ) : Cost) →
      (∀ j, j < k → b.2 ≤ ((f j : ℝ) : Cost)) →
      (∀ j, j < b.1 → b.2 < ((f j : ℝ) : Cost)) →
      (((List.range' k n).foldl (bestStep f) b).1 < k + n ∧
        ((List.range' k n).foldl (bestStep f) b).2 =
          ((f ((List.range' k n).foldl (bestStep f) b).1 : ℝ) : Cost) ∧
        (∀ j, j < k + n →
          ((List.range' k n).foldl (bestStep f) b).2 ≤ ((f j : ℝ) : Cost)) ∧
        (∀ j, j < ((List.range' k n).foldl (bestStep f) b).1 →
          ((List.range' k n).foldl (bestStep f) b).2 < ((f j : ℝ) : Cost))) := by
  intro n
  induction n with
  | zero =>
      intro k b h1 h2 h3 h4
      exact ⟨by simpa using h1, h2, by simpa using h3, h4⟩
  | succ n ih =>
      intro k b h1 h2 h3 h4
      rw [List.range'_succ, List.foldl_cons]
      have hkn : k + 1 + n = k + (n + 1) := by omega
      by_cases hc : ((f k : ℝ) : Cost) < b.2
      · have hstep : bestStep f b k = (k, ((f k : ℝ) : Cost)) := by
          rw [bestStep, if_pos hc]
        rw [hstep]
        have h3' : ∀ j, j < k + 1 → ((f k : ℝ) : Cost) ≤ ((f j : ℝ) : Cost) := by
          intro j hj
          rcases Nat.lt_succ_iff_lt_or_eq.mp hj with hj | hj
          · exact le_of_lt (lt_of_lt_of_le hc (h3 j hj))
          · rw [hj]
        have h4' : ∀ j, j < k → ((f k : ℝ) : Cost) < ((f j : ℝ) : Cost) := by
          intro j hj
          exact lt_of_lt_of_le hc (h3 j hj)
        have := ih (k + 1) (k, ((f k : ℝ) : Cost)) (by omega) rfl h3' h4'
        rw [hkn] at this
        exact this
      · have hstep : bestStep f b k = b := by
          rw [bestStep, if_neg hc]
        rw [hstep]
        have h3' : ∀ j, j < k + 1 → b.2 ≤ ((f j : ℝ) : Cost) := by
          intro j hj
          rcases Nat.lt_succ_iff_lt_or_eq.mp hj with hj | hj
          · exact h3 j hj
          · rw [hj]; exact not_lt.mp hc
        have := ih (k + 1) b (by omega) h2 h3' h4
        rw [hkn] at this
        exact this

theorem fullScoreScan_eval (r : RecoveryODTW)
    (hm : 1 ≤ r.chromaHistory.length) (hmn : r.chromaHistory.length ≤ r.nFramesRef) :
    r.fullScoreScan = .ok
      (((List.range (r.nFramesRef - r.chromaHistory.length + 1)).foldl
          (bestStep (specAvgDist r.chromaHistory r.odtw.ref)) (0, ⊤)).1 +
        r.chromaHistory.length - 1) := by
  simp only [RecoveryODTW.fullScoreScan]
  rw [if_neg (by omega)]
  rw [foldlM_bestStep (specAvgDist r.chromaHistory r.odtw.ref) _
    (List.range (r.nFramesRef - r.chromaHistory.length + 1)) ((0 : ℕ), (⊤ : Cost)) ?_]
  · rfl
  · intro b2 s hs
    have hsm : s + r.chromaHistory.length ≤ r.nFramesRef := by
      have := List.mem_range.mp hs
      omega
    have hlenA : (r.chromaHistory.map normalizeGuarded).length = r.chromaHistory.length :=
      List.length_map _ _
    have hlenB := sliceCols_length r.odtw.ref s r.chromaHistory.length hsm
    have hmul : npMulRows (r.chromaHistory.map normalizeGuarded)
        (sliceCols r.odtw.ref s r.chromaHistory.length) =
        .ok (List.zipWith (fun u v => List.zipWith (fun x y => x * y) u v)
          (r.chromaHistory.map normalizeGuarded)
          (sliceCols r.odtw.ref s r.chromaHistory.length)) := by
      rw [npMulRows, if_pos (by rw [hlenA, hlenB])]
    rw [hmul]
    show (Except.ok _ >>= _ : Except String (ℕ × Cost)) = _
    simp only [Bind.bind, Except.bind]
    have havg : ((List.zipWith (fun u v => List.zipWith (fun x y => x * y) u v)
          (r.chromaHistory.map normalizeGuarded)
          (sliceCols r.odtw.ref s r.chromaHistory.length)).map
            (fun row => 1 - clamp row.sum)).sum /
        (((List.zipWith (fun u v => List.zipWith (fun x y => x * y) u v)
          (r.chromaHistory.map normalizeGuarded)
          (sliceCols r.odtw.ref s r.chromaHistory.length)).map
            (fun row => 1 - clamp row.sum)).length : ℝ) =
        specAvgDist r.chromaHistory r.odtw.ref s := by
      rw [List.map_zipWith,
        zipWith_getD_range _ ([] : Vec) ([] : Vec) _ _ (hlenA.trans hlenB.symm), hlenA]
      rw [specAvgDist]
      congr 1
      · refine congrArg List.sum (List.map_congr_left (fun k hk => ?_))
        have hkm := List.mem_range.mp hk
        rw [getD_map_lt normalizeGuarded r.chromaHistory k hkm [] [],
          sliceCols_getD r.odtw.ref s r.chromaHistory.length k hkm hsm]
        rfl
      · rw [List.length_map, List.length_range]
    rw [havg, bestStep]
    split_ifs with h <;> rfl

/-- C7: a rescan whose buffered history (M frames, 1 ≤ M ≤ N) fits
the reference picks the start offset in [0, N - M] minimizing the mean
clipped cosine distance between the guarded-normalized history frames
and the reference window, resolving ties towards the smallest offset,
and relocates to that offset plus M - 1. -/
theorem C7_rescan_argmin (r : RecoveryODTW)
    (hm : 1 ≤ r.chromaHistory.length) (hmn : r.chromaHistory.length ≤ r.nFramesRef) :
    ∃ sb : ℕ,
      r.fullScoreScan = .ok (sb + r.chromaHistory.length - 1) ∧
      sb ≤ r.nFramesRef - r.chromaHistory.length ∧
      (∀ s2, s2 ≤ r.nFramesRef - r.chromaHistory.length →
          specAvgDist r.chromaHistory r.odtw.ref sb ≤
            specAvgDist r.chromaHistory r.odtw.ref s2) ∧
      (∀ s2, s2 < sb →
          specAvgDist r.chromaHistory r.odtw.ref sb <
            specAvgDist r.chromaHistory r.odtw.ref s2) := by
  have heval := fullScoreScan_eval r hm hmn
  set f := specAvgDist r.chromaHistory r.odtw.ref with hf
  set ms := r.nFramesRef - r.chromaHistory.length with hms
  have hrange : List.range (ms + 1) = 0 :: List.range' 1 ms := by
    rw [List.range_eq_range']
    simpa using List.range'_succ 0 ms 1
  have hB : (List.range (ms + 1)).foldl (bestStep f) ((0 : ℕ), (⊤ : Cost)) =
      (List.range' 1 ms).foldl (bestStep f) (0, ((f 0 : ℝ) : Cost)) := by
    rw [hrange, List.foldl_cons]
    congr 1
  have hinv := bestStep_inv f ms 1 (0, ((f 0 : ℝ) : Cost)) (by omega) rfl
    (fun j hj => by
      have hj0 : j = 0 := by omega
      rw [hj0])
    (fun j hj => absurd hj (by omega))
  rw [hB] at heval
  refine ⟨((List.range' 1 ms).foldl (bestStep f) (0, ((f 0 : ℝ) : Cost))).1,
    heval, by omega, ?_, ?_⟩
  · intro s2 hs2
    have hle := hinv.2.2.1 s2 (by omega)
    rw [hinv.2.1] at hle
    exact WithTop.coe_le_coe.mp hle
  · intro s2 hs2
    have hlt := hinv.2.2.2 s2 hs2
    rw [hinv.2.1] at hlt
    exact WithTop.coe_lt_coe.mp hlt

/-- Witness for C7 on a one-frame history over a two-frame reference. -/
theorem C7_rescan_argmin_witness :
    1 ≤ recDemoScan.chromaHistory.length ∧
    recDemoScan.chromaHistory.length ≤ recDemoScan.nFramesRef ∧
    ∃ sb : ℕ,
      recDemoScan.fullScoreScan = .ok (sb + recDemoScan.chromaHistory.length - 1) ∧
      sb ≤ recDemoScan.nFramesRef - recDemoScan.chromaHistory.length ∧
      (∀ s2, s2 ≤ recDemoScan.nFramesRef - recDemoScan.chromaHistory.length →
          specAvgDist recDemoScan.chromaHistory recDemoScan.odtw.ref sb ≤
            specAvgDist recDemoScan.chromaHistory recDemoScan.odtw.ref s2) ∧
      (∀ s2, s2 < sb →
          specAvgDist recDemoScan.chromaHistory recDemoScan.odtw.ref sb <
            specAvgDist recDemoScan.chromaHistory recDemoScan.odtw.ref s2) := by
  refine ⟨by decide, by decide, C7_rescan_argmin recDemoScan (by decide) (by decide)⟩

theorem step_trigger_eq (r : RecoveryODTW) (v : Vec) (p : ℕ)
    (hlen : (pushBounded r.avgWindow r.costHistory
        (StandardODTW.step r.odtw v).2.2).length = r.avgWindow)
    (htrig : (r.recoveryThreshold : Cost) <
        meanCost (pushBounded r.avgWindow r.costHistory (StandardODTW.step r.odtw v).2.2))
    (hscan : ({ r with
        chromaHistory := pushBounded r.bufferSize r.chromaHistory v
        odtw := (StandardODTW.step r.odtw v).1
        costHistory := pushBounded r.avgWindow r.costHistory
          (StandardODTW.step r.odtw v).2.2 } : RecoveryODTW).fullScoreScan = .ok p) :
    r.step v = .ok
      ({ odtw := (StandardODTW.step
            { (StandardODTW.step r.odtw v).1 with
              accumulatedCosts :=
                (List.replicate r.nFramesRef (⊤ : Cost)).set (min p (r.nFramesRef - 1)) 0
              currentPositionIndex := min p (r.nFramesRef - 1)
              chromaBuffer := [] } v).1
         recoveryThreshold := r.recoveryThreshold
         avgWindow := r.avgWindow
         bufferSize := r.bufferSize
         costHistory := []
         chromaHistory := pushBounded r.bufferSize r.chromaHistory v
         recoveryCount := r.recoveryCount + 1 },
        (StandardODTW.step
          { (StandardODTW.step r.odtw v).1 with
            accumulatedCosts :=
              (List.replicate r.nFramesRef (⊤ : Cost)).set (min p (r.nFramesRef - 1)) 0
            currentPositionIndex := min p (r.nFramesRef - 1)
            chromaBuffer := [] } v).2.1,
        (StandardODTW.step
          { (StandardODTW.step r.odtw v).1 with
            accumulatedCosts :=
              (List.replicate r.nFramesRef (⊤ : Cost)).set (min p (r.nFramesRef - 1)) 0
            currentPositionIndex := min p (r.nFramesRef - 1)
            chromaBuffer := [] } v).2.2,
        true) := by
  simp only [RecoveryODTW.step]
  rw [if_pos ⟨hlen, htrig⟩]
  rw [hscan]
  show (Except.ok p >>= _ : Except String (RecoveryODTW × ℕ × Cost × Bool)) = _
  simp only [Bind.bind, Except.bind]
  rfl

/-- C4 (amended): when the divergence check fires and the buffered
history fits the reference (M ≤ N), the supervisor rescans, clamps the
relocation target to [0, N-1], resets the wrapped core's costs to the
single-source state there, clears the core's smoothing buffer, clears
costHistory (liveHistory is retained, not cleared), increments
recoveryCount, reports recovered = true, and re-issues the current frame
through the relocated core, whose fresh position/cost pair is what the
call returns. -/
theorem C4_recovery_relocation (r : RecoveryODTW) (v : Vec)
    (hlen : (pushBounded r.avgWindow r.costHistory
        (StandardODTW.step r.odtw v).2.2).length = r.avgWindow)
    (htrig : (r.recoveryThreshold : Cost) <
        meanCost (pushBounded r.avgWindow r.costHistory (StandardODTW.step r.odtw v).2.2))
    (hm : 1 ≤ (pushBounded r.bufferSize r.chromaHistory v).length)
    (hmn : (pushBounded r.bufferSize r.chromaHistory v).length ≤ r.nFramesRef) :
    ∃ p : ℕ,
      ({ r with
        chromaHistory := pushBounded r.bufferSize r.chromaHistory v
        odtw := (StandardODTW.step r.odtw v).1
        costHistory := pushBounded r.avgWindow r.costHistory
          (StandardODTW.step r.odtw v).2.2 } : RecoveryODTW).fullScoreScan = .ok p ∧
      min p (r.nFramesRef - 1) ≤ r.nFramesRef - 1 ∧
      min p (r.nFramesRef - 1) < r.nFramesRef ∧
      r.step v = .ok
        ({ odtw := (StandardODTW.step
              { (StandardODTW.step r.odtw v).1 with
                accumulatedCosts :=
                  (List.replicate r.nFramesRef (⊤ : Cost)).set (min p (r.nFramesRef - 1)) 0
                currentPositionIndex := min p (r.nFramesRef - 1)
                chromaBuffer := [] } v).1
           recoveryThreshold := r.recoveryThreshold
           avgWindow := r.avgWindow
           bufferSize := r.bufferSize
           costHistory := []
           chromaHistory := pushBounded r.bufferSize r.chromaHistory v
           recoveryCount := r.recoveryCount + 1 },
          (StandardODTW.step
            { (StandardODTW.step r.odtw v).1 with
              accumulatedCosts :=
                (List.replicate r.nFramesRef (⊤ : Cost)).set (min p (r.nFramesRef - 1)) 0
              currentPositionIndex := min p (r.nFramesRef - 1)
              chromaBuffer := [] } v).2.1,
          (StandardODTW.step
            { (StandardODTW.step r.odtw v).1 with
              accumulatedCosts :=
                (List.replicate r.nFramesRef (⊤ : Cost)).set (min p (r.nFramesRef - 1)) 0
              currentPositionIndex := min p (r.nFramesRef - 1)
              chromaBuffer := [] } v).2.2,
          true) := by
  have hN : 1 ≤ r.nFramesRef := le_trans hm hmn
  have hscan := fullScoreScan_eval
    ({ r with
      chromaHistory := pushBounded r.bufferSize r.chromaHistory v
      odtw := (StandardODTW.step r.odtw v).1
      costHistory := pushBounded r.avgWindow r.costHistory
        (StandardODTW.step r.odtw v).2.2 } : RecoveryODTW) hm hmn
  refine ⟨_, hscan, min_le_right _ _,
    lt_of_le_of_lt (min_le_right _ _) (by omega),
    step_trigger_eq r v _ hlen htrig hscan⟩

/-- Witness for C4 on a concrete triggering recovery. -/
theorem C4_recovery_relocation_witness :
    ∃ (p : ℕ) (out : RecoveryODTW × ℕ × Cost × Bool),
      recDemo.step zeroVec12 = .ok out ∧ out.2.2.2 = true := by
  obtain ⟨p, hscan, hle, hlt, hstep⟩ := C4_recovery_relocation recDemo zeroVec12
    (by
      rw [show recDemo.odtw = demoOdtw from rfl, demoOdtw_step_eval]
      rfl)
    (by
      rw [show recDemo.odtw = demoOdtw from rfl, demoOdtw_step_eval]
      show (recDemo.recoveryThreshold : Cost) < meanCost [((1 : ℝ) : Cost)]
      rw [meanCost_one, show recDemo.recoveryThreshold = (-1 : ℝ) from rfl]
      exact WithTop.coe_lt_coe.mpr (by norm_num))
    (by decide) (by decide)
  exact ⟨p, _, hstep, rfl⟩

/-- Counterexample to the claim C4 as stated: a concrete recovery step
that triggers (recovered = true) but leaves the liveHistory buffer
non-empty — the code clears only costHistory, never chromaHistory. -/
theorem C4_counterexample :
    ∃ out : RecoveryODTW × ℕ × Cost × Bool,
      recDemo.step zeroVec12 = .ok out ∧ out.2.2.2 = true ∧
        out.1.chromaHistory ≠ [] := by
  refine ⟨_, recDemo_step_eval, rfl, by simp⟩

theorem demoOdtw2_step_eval :
    StandardODTW.step demoOdtw2 zeroVec12 =
      ({ demoOdtw2 with
          chromaBuffer := [zeroVec12]
          accumulatedCosts := [((1 : ℝ) : Cost), ⊤]
          currentPositionIndex := 0 },
        0, ((1 : ℝ) : Cost)) := by
  have hbuf : pushBounded demoOdtw2.smoothingWindow demoOdtw2.chromaBuffer zeroVec12 =
      [zeroVec12] := pushBounded_small 1 [] zeroVec12 (by norm_num)
  simp only [StandardODTW.step, hbuf, liveVec_zero]
  have hrange : List.range'
      (demoOdtw2.currentPositionIndex - demoOdtw2.searchWindow)
      (min demoOdtw2.nFramesRef (demoOdtw2.currentPositionIndex + demoOdtw2.searchWindow) -
        (demoOdtw2.currentPositionIndex - demoOdtw2.searchWindow)) = [0] := by
    norm_num [demoOdtw2, demoOdtw, demoRef, StandardODTW.nFramesRef, List.range']
  rw [hrange]
  have hg : StandardODTW.stepCostAt demoOdtw2 zeroVec12 0 = ((1 : ℝ) : Cost) := by
    simp only [StandardODTW.stepCostAt, demoOdtw2, demoOdtw, demoRef]
    norm_num [dot_zero12, clamp_zero, List.getD]
  simp only [scanFold, hg]
  rw [if_pos (WithTop.coe_lt_top 1)]
  norm_num [demoOdtw2, demoOdtw, List.set, List.replicate]

theorem fullScoreScan_M3_error (r : RecoveryODTW)
    (hh : r.chromaHistory = [zeroVec12, zeroVec12, zeroVec12])
    (hr : r.odtw.ref = [zeroVec12, zeroVec12]) :
    r.fullScoreScan = .error "ValueError: operands could not be broadcast together" := by
  simp only [RecoveryODTW.fullScoreScan, RecoveryODTW.nFramesRef, hh, hr]
  norm_num [normalizeGuarded_zero, sliceCols, npMulRows, List.range', List.foldlM,
    Except.bind, Except.map]

/-- C5: evaluation of the triggering step at a concrete state whose
buffered history (3 frames) exceeds the reference length (2 frames).
The code does not skip the rescan: it clamps the start range to the
single offset 0, slices a truncated reference window of 2 frames against
the 3 live frames, and the row-wise product raises a shape-mismatch
error, so the divergence handling aborts with an exception. -/
theorem C5_overlong_rescan_error :
    (pushBounded recDemoM3.bufferSize recDemoM3.chromaHistory zeroVec12).length = 3 ∧
    recDemoM3.nFramesRef = 2 ∧
    recDemoM3.step zeroVec12 =
      .error "ValueError: operands could not be broadcast together" := by
  refine ⟨by decide, by decide, ?_⟩
  have h1 : pushBounded recDemoM3.bufferSize recDemoM3.chromaHistory zeroVec12 =
      [zeroVec12, zeroVec12, zeroVec12] := rfl
  have h2 : StandardODTW.step recDemoM3.odtw zeroVec12 =
      ({ demoOdtw2 with
          chromaBuffer := [zeroVec12]
          accumulatedCosts := [((1 : ℝ) : Cost), ⊤]
          currentPositionIndex := 0 },
        0, ((1 : ℝ) : Cost)) := by
    rw [show recDemoM3.odtw = demoOdtw2 from rfl, demoOdtw2_step_eval]
  have hpc : pushBounded recDemoM3.avgWindow recDemoM3.costHistory ((1 : ℝ) : Cost) =
      [((1 : ℝ) : Cost)] := rfl
  have hcond : (([((1 : ℝ) : Cost)] : List Cost).length = recDemoM3.avgWindow) ∧
      ((recDemoM3.recoveryThreshold : Cost) < meanCost [((1 : ℝ) : Cost)]) := by
    refine ⟨rfl, ?_⟩
    rw [meanCost_one, show recDemoM3.recoveryThreshold = (-1 : ℝ) from rfl]
    exact WithTop.coe_lt_coe.mpr (by norm_num)
  simp only [RecoveryODTW.step, h1, h2, hpc]
  rw [if_pos hcond]
  rw [fullScoreScan_M3_error _ rfl rfl]
  rfl
